import Mathlib

/-!
Verification of the competency-measure module
(`modules/skill_map/competency.py`).

Shallow embedding conventions:
* Python strings are `List Char` (`Str` below), so that splitting and
  concatenation can be reasoned about by list induction.
* Python floats carrying normalized scores are modelled as `ℚ`.
* A Python method that can raise (a failed `assert`, an `AttributeError`
  from accessing a member of `None`, a `KeyError` from a missing dict key,
  a `TypeError` from `zip` over a non-list) returns `Option`/`none`.
* A DTO's `dict` has exactly two top-level keys in this module, `data`
  (a mapping written only with int counter values by the one concrete
  measure) and `events` (a list of event records); it is flattened into
  the two fields `data` and `events`, where an absent key is the empty
  association list / empty list, matching the `dict.get(_, default)` and
  `dict.setdefault` reads and writes in the source.
-/

set_option autoImplicit false

namespace CourseBuilder

/-- Python strings, modelled as lists of characters. -/
abbrev Str := List Char

/-- First-match lookup in an association list, as Python `dict.get`. -/
def assocLookup {V : Type} : List (Str × V) → Str → Option V
  | [], _ => none
  | (k, v) :: rest, key => if k = key then some v else assocLookup rest key

/-- Write a key in an association list, as Python `dict.__setitem__`:
overwrite in place if present, append otherwise. -/
def assocSet {V : Type} : List (Str × V) → Str → V → List (Str × V)
  | [], key, value => [(key, value)]
  | (k, v) :: rest, key, value =>
    if k = key then (k, value) :: rest else (k, v) :: assocSet rest key value

/-- The optional keyword arguments of `BaseCompetencyMeasure.update`
(`unit_id`, `lesson_id`, `block_id`, `timestamp`); their values are never
read by this module, so they are modelled as opaque optional numbers. -/
structure EventMeta where
  unit_id : Option Nat
  lesson_id : Option Nat
  block_id : Option Nat
  timestamp : Option Nat
deriving DecidableEq, Repr

/-- The event dict appended by `BaseCompetencyMeasure.update`. -/
structure EventRecord where
  normalized_score : ℚ
  unit_id : Option Nat
  lesson_id : Option Nat
  block_id : Option Nat
  timestamp : Option Nat
deriving DecidableEq, Repr

/-- Builds the event dict of `BaseCompetencyMeasure.update`. -/
def mkEventRecord (normalized_score : ℚ) (kwargs : EventMeta) : EventRecord :=
  { normalized_score := normalized_score
    unit_id := kwargs.unit_id
    lesson_id := kwargs.lesson_id
    block_id := kwargs.block_id
    timestamp := kwargs.timestamp }

/-- `CompetencyMeasureDto`: `_id` plus the `dict`, the latter flattened
into its `data` and `events` components. -/
structure CompetencyMeasureDto where
  id : Str
  data : List (Str × Nat)
  events : List EventRecord
deriving DecidableEq

/-- `CompetencyMeasureDto.get_data`: `self.dict.get('data', {}).get(property_name)`. -/
def CompetencyMeasureDto.get_data (dto : CompetencyMeasureDto) (property_name : Str) :
    Option Nat :=
  assocLookup dto.data property_name

/-- `CompetencyMeasureDto.set_data`:
`self.dict.setdefault('data', {})[property_name] = property_value`. -/
def CompetencyMeasureDto.set_data (dto : CompetencyMeasureDto) (property_name : Str)
    (property_value : Nat) : CompetencyMeasureDto :=
  { dto with data := assocSet dto.data property_name property_value }

/-- `CompetencyMeasureDto.append_event`:
`self.dict.setdefault('events', []).append(event)`. -/
def CompetencyMeasureDto.append_event (dto : CompetencyMeasureDto) (event : EventRecord) :
    CompetencyMeasureDto :=
  { dto with events := dto.events ++ [event] }

/-- `CompetencyMeasureDto.get_events_list`: `self.dict.get('events', [])`. -/
def CompetencyMeasureDto.get_events_list (dto : CompetencyMeasureDto) : List EventRecord :=
  dto.events

/-- `CompetencyMeasureEntity.create_key_name`: asserts that no component
contains the separator `':'` (over the concatenation `'%s%s%s'`), then
joins the three components with `':'`.  A failed Python `assert` is
`none`. -/
def CompetencyMeasureEntity.create_key_name (user_id skill_id class_name : Str) :
    Option Str :=
  if ':' ∈ user_id ++ skill_id ++ class_name then none
  else some (user_id ++ [':'] ++ skill_id ++ [':'] ++ class_name)

/-- Python `s.split(':', 1)` step: the part before the first `':'`, and
the remainder after it when one exists. -/
def splitFirstColon : Str → Str × Option Str
  | [] => ([], none)
  | c :: rest =>
    if c = ':' then ([], some rest)
    else
      let p := splitFirstColon rest
      (c :: p.1, p.2)

/-- Python `s.split(':', 2)` as used by `CompetencyMeasureEntity.safe_key`:
at most two splits, the remainder kept whole as the third part. -/
def pySplitColonMax2 (s : Str) : List Str :=
  match splitFirstColon s with
  | (a, none) => [a]
  | (a, some r1) =>
    match splitFirstColon r1 with
    | (b, none) => [a, b]
    | (b, some r2) => [a, b, r2]

/-- The persistence collaborator: `CompetencyMeasureDao` keyed by the
composite key name.  A stored DTO is kept under its own `id`. -/
abbrev Store := Str → Option CompetencyMeasureDto

/-- `CompetencyMeasureDao.load` (external `BaseJsonDao` behavior): fetch
by key name, `none` when absent. -/
def CompetencyMeasureDao.load (store : Store) (key : Str) : Option CompetencyMeasureDto :=
  store key

/-- `CompetencyMeasureDao.save` (external `BaseJsonDao` behavior): write
the DTO under its key name. -/
def CompetencyMeasureDao.save (store : Store) (dto : CompetencyMeasureDto) : Store :=
  fun k => if k = dto.id then some dto else store k

/-- In-memory state of a `BaseCompetencyMeasure` (and of its concrete
subclass): the constructor sets `dto = None` and keeps `user_id`. -/
structure BaseCompetencyMeasure where
  user_id : Str
  dto : Option CompetencyMeasureDto
deriving DecidableEq

/-- `BaseCompetencyMeasure.__init__`. -/
def BaseCompetencyMeasure.init (user_id : Str) : BaseCompetencyMeasure :=
  { user_id := user_id, dto := none }

/-- `BaseCompetencyMeasure.load`, parametrized by the concrete class name
(`self.__class__.__name__`): builds the composite key (whose assertion
may fail), loads the DTO, and lazily creates an empty document when the
store has none. -/
def BaseCompetencyMeasure.load (class_name : Str) (store : Store)
    (m : BaseCompetencyMeasure) (skill_id : Str) : Option BaseCompetencyMeasure :=
  (CompetencyMeasureEntity.create_key_name m.user_id skill_id class_name).map
    fun resource_key =>
      { m with
        dto := some ((CompetencyMeasureDao.load store resource_key).getD
          { id := resource_key, data := [], events := [] }) }

/-- `BaseCompetencyMeasure.save`: asserts a document is loaded, persists
it, then sets the handle to `None` (the instance is consumed). -/
def BaseCompetencyMeasure.save (store : Store) (m : BaseCompetencyMeasure) :
    Option (Store × BaseCompetencyMeasure) :=
  match m.dto with
  | none => none
  | some dto => some (CompetencyMeasureDao.save store dto, { m with dto := none })

/-- `BaseCompetencyMeasure.update`: asserts a document is loaded and
appends one event record to it. -/
def BaseCompetencyMeasure.update (m : BaseCompetencyMeasure) (normalized_score : ℚ)
    (kwargs : EventMeta) : Option BaseCompetencyMeasure :=
  match m.dto with
  | none => none
  | some dto =>
    some { m with dto := some (dto.append_event (mkEventRecord normalized_score kwargs)) }

/-- `BaseCompetencyMeasure.get_events_list`: asserts a document is loaded
and returns its stored event list. -/
def BaseCompetencyMeasure.get_events_list (m : BaseCompetencyMeasure) :
    Option (List EventRecord) :=
  match m.dto with
  | none => none
  | some dto => some dto.get_events_list

/-- `BaseCompetencyMeasure.CORRECT_INCORRECT_CUTOFF = 0.5` (the float 0.5
is exact). -/
def CORRECT_INCORRECT_CUTOFF : ℚ := mkRat 1 2

/-- `SuccessRateCompetencyMeasure.CORRECT_KEY`. -/
def CORRECT_KEY : Str := "correct".data

/-- `SuccessRateCompetencyMeasure.COUNT_KEY`. -/
def COUNT_KEY : Str := "count".data

/-- `SuccessRateCompetencyMeasure.__name__`, the `class_name` its `load`
passes to `create_key_name`. -/
def SuccessRateCompetencyMeasure.className : Str := "SuccessRateCompetencyMeasure".data

/-- `SuccessRateCompetencyMeasure.update`: first chains to the base
`update` (the `super(...)` call appending the raw event), then reads and
increments the `count` counter unconditionally and the `correct` counter
when `normalized_score >= CORRECT_INCORRECT_CUTOFF`.  (`get_data(...) or 0`
maps both a missing key and a stored 0 to 0, i.e. `Option.getD 0`.) -/
def SuccessRateCompetencyMeasure.update (m : BaseCompetencyMeasure)
    (normalized_score : ℚ) (kwargs : EventMeta) : Option BaseCompetencyMeasure :=
  match BaseCompetencyMeasure.update m normalized_score kwargs with
  | none => none
  | some m1 =>
    match m1.dto with
    | none => none
    | some dto0 =>
      let count := (dto0.get_data COUNT_KEY).getD 0
      let dto1 := dto0.set_data COUNT_KEY (count + 1)
      let dto2 :=
        if CORRECT_INCORRECT_CUTOFF ≤ normalized_score then
          let correct := (dto1.get_data CORRECT_KEY).getD 0
          dto1.set_data CORRECT_KEY (correct + 1)
        else dto1
      some { m1 with dto := some dto2 }

/-- `SuccessRateCompetencyMeasure.get_skill_score`:
`float(correct) / count if count else 0.0`; accessing `self.dto` when no
document is loaded is an `AttributeError`, hence `Option`. -/
def SuccessRateCompetencyMeasure.get_skill_score (m : BaseCompetencyMeasure) : Option ℚ :=
  m.dto.map fun dto =>
    let correct := (dto.get_data CORRECT_KEY).getD 0
    let count := (dto.get_data COUNT_KEY).getD 0
    if count ≠ 0 then (correct : ℚ) / (count : ℚ) else 0

/-- `SuccessRateCompetencyMeasure.load` = the inherited base `load` with
this class's name. -/
def SuccessRateCompetencyMeasure.load (store : Store) (m : BaseCompetencyMeasure)
    (skill_id : Str) : Option BaseCompetencyMeasure :=
  BaseCompetencyMeasure.load SuccessRateCompetencyMeasure.className store m skill_id

/-- One primitive mutation performed on the loaded DTO: the two kinds of
writes this module does (`append_event`, `set_data`). -/
inductive DtoMutation where
  | appendEvent (event : EventRecord)
  | setData (property_name : Str) (property_value : Nat)
deriving DecidableEq

/-- Apply one primitive DTO mutation. -/
def applyDtoMutation (dto : CompetencyMeasureDto) : DtoMutation → CompetencyMeasureDto
  | .appendEvent event => dto.append_event event
  | .setData property_name property_value => dto.set_data property_name property_value

/-- The sequence of DTO mutations `SuccessRateCompetencyMeasure.update`
performs on a loaded document, in the source's execution order: the
`super(...)` call appends the event first, then `count` is written, then
(for a passing score) `correct` is written.  The counter values recorded
are those the source reads at that point of execution. -/
def SuccessRateCompetencyMeasure.updateMutationTrace (dto0 : CompetencyMeasureDto)
    (normalized_score : ℚ) (kwargs : EventMeta) : List DtoMutation :=
  let event := mkEventRecord normalized_score kwargs
  let dtoA := dto0.append_event event
  let count := (dtoA.get_data COUNT_KEY).getD 0
  let dtoB := dtoA.set_data COUNT_KEY (count + 1)
  if CORRECT_INCORRECT_CUTOFF ≤ normalized_score then
    let correct := (dtoB.get_data CORRECT_KEY).getD 0
    [DtoMutation.appendEvent event, DtoMutation.setData COUNT_KEY (count + 1),
      DtoMutation.setData CORRECT_KEY (correct + 1)]
  else
    [DtoMutation.appendEvent event, DtoMutation.setData COUNT_KEY (count + 1)]

/-- `load` then the given scores through `SuccessRateCompetencyMeasure.update`
(keyword arguments defaulted, as `Registry._Updater.update` calls it). -/
def runSuccessRateUpdates (m : BaseCompetencyMeasure) :
    List ℚ → Option BaseCompetencyMeasure
  | [] => some m
  | s :: rest =>
    match SuccessRateCompetencyMeasure.update m s ⟨none, none, none, none⟩ with
    | none => none
    | some m1 => runSuccessRateUpdates m1 rest

/-- A decoded JSON/Python value, as the ingestion functions receive it
from `transforms.loads` (an external collaborator; the listener is
modelled on already-decoded payloads).  Dicts keep insertion order, as
the iteration order of the many-items ingestor is the entry order. -/
inductive PyVal where
  | str (s : Str)
  | num (q : ℚ)
  | list (items : List PyVal)
  | dict (entries : List (Str × PyVal))
  | null

/-- Python `data[key]` on a decoded value: a value for a dict holding the
key, an error (`KeyError` / `TypeError`) otherwise. -/
def pyIndex : PyVal → Str → Option PyVal
  | .dict entries, key => assocLookup entries key
  | _, _ => none

/-- `QuestionScore` named tuple: `(quid, score)`, both raw decoded
values. -/
abbrev QuestionScore := PyVal × PyVal

/-- Python `value == 'QuestionGroup'`: true exactly for the equal
string. -/
def isQuestionGroupTag : PyVal → Bool
  | .str s => s = "QuestionGroup".data
  | _ => false

/-- `_get_questions_scores_from_single_item`: a `QuestionGroup` item zips
its `quids` list with its `individualScores` list positionally; any other
item is the single pair `(data['quid'], data['score'])`.  `zip` over a
non-list operand is a `TypeError` (`none`); missing keys are `KeyError`
(`none`). -/
def getQuestionsScoresFromSingleItem (data : PyVal) : Option (List QuestionScore) :=
  match pyIndex data "type".data with
  | none => none
  | some t =>
    if isQuestionGroupTag t then
      match pyIndex data "quids".data, pyIndex data "individualScores".data with
      | some (.list quids), some (.list scores) => some (quids.zip scores)
      | _, _ => none
    else
      match pyIndex data "quid".data, pyIndex data "score".data with
      | some quid, some score => some [(quid, score)]
      | _, _ => none

/-- The per-instance-id loop body of `_get_questions_scores_from_many_items`:
a string quid is one pair with that instance's score; a list quid is
zipped positionally with that instance's list of scores; a missing score
entry is a `KeyError` and a non-list score against a list quid is a
`TypeError` from `zip`. -/
def manyItemsLoop (scores : List (Str × PyVal)) :
    List (Str × PyVal) → Option (List QuestionScore)
  | [] => some []
  | (instanceid, quid) :: rest =>
    match assocLookup scores instanceid with
    | none => none
    | some score =>
      let pairs : Option (List QuestionScore) :=
        match quid, score with
        | .str q, _ => some [(PyVal.str q, score)]
        | .list qs, .list ss => some (qs.zip ss)
        | _, _ => none
      match pairs, manyItemsLoop scores rest with
      | some ps, some restPairs => some (ps ++ restPairs)
      | _, _ => none

/-- `_get_questions_scores_from_many_items`: a bare list (a pre-1.5
assessment) is ignored, yielding zero pairs; otherwise `data['quids']`
and `data['individualScores']` are parallel dicts iterated per
instance id. -/
def getQuestionsScoresFromManyItems (data : PyVal) : Option (List QuestionScore) :=
  match data with
  | .list _ => some []
  | _ =>
    match pyIndex data "quids".data, pyIndex data "individualScores".data with
    | some (.dict quids), some (.dict scores) => manyItemsLoop scores quids
    | _, _ => none

/-- The skill-tag lookup collaborator: `models.QuestionDAO.load(quid)`
followed by `question.dict.get(constants.SKILLS_KEY, [])`; `none` means
the DAO returned `None`, on which the attribute access `question.dict`
raises. -/
abbrev QuestionDb := PyVal → Option (List Str)

/-- The `scores_by_skill` defaultdict: appending a score to a skill's
list, first occurrence of a skill adding its entry at the end (dict
insertion order). -/
def addScoreBySkill (groups : List (Str × List PyVal)) (skill_id : Str) (score : PyVal) :
    List (Str × List PyVal) :=
  match groups with
  | [] => [(skill_id, [score])]
  | (k, scores) :: rest =>
    if k = skill_id then (k, scores ++ [score]) :: rest
    else (k, scores) :: addScoreBySkill rest skill_id score

/-- The grouping loop of `record_event_listener`: each question-score
pair's question is loaded (a missing question aborts the event with an
`AttributeError`) and its score appended under every skill tagged on the
question. -/
def groupScoresBySkill (qdb : QuestionDb) (groups : List (Str × List PyVal)) :
    List QuestionScore → Option (List (Str × List PyVal))
  | [] => some groups
  | (quid, score) :: rest =>
    match qdb quid with
    | none => none
    | some skill_ids =>
      groupScoresBySkill qdb (skill_ids.foldl (fun g sk => addScoreBySkill g sk score) groups)
        rest

/-- The updater phase of `record_event_listener`, with the registry as
`notify_module_enabled` leaves it: exactly `SuccessRateCompetencyMeasure`
registered.  Per skill: `Registry.get_updater` instantiates and loads the
measure, every score of that skill is fed to `update` in order, then
`save` persists it.  A payload score that is not a number is modelled as
a failure when it reaches the measure. -/
def runUpdaterPhase (user_id : Str) (store : Store) :
    List (Str × List PyVal) → Option Store
  | [] => some store
  | (skill_id, scores) :: rest =>
    match SuccessRateCompetencyMeasure.load store (BaseCompetencyMeasure.init user_id)
        skill_id with
    | none => none
    | some m0 =>
      let afterUpdates : Option BaseCompetencyMeasure := scores.foldl
        (fun acc score =>
          match acc, score with
          | some m, PyVal.num q =>
            SuccessRateCompetencyMeasure.update m q ⟨none, none, none, none⟩
          | _, _ => none)
        (some m0)
      match afterUpdates with
      | none => none
      | some m1 =>
        match BaseCompetencyMeasure.save store m1 with
        | none => none
        | some (store1, _) => runUpdaterPhase user_id store1 rest

/-- `record_event_listener`: dispatch on the source tag to an ingestion
shape (an unrecognized tag returns immediately), group the resulting
question-score pairs by skill, then run one updater per skill.  The
result is the final store; `none` is an uncaught exception (every
exception this embedding can produce occurs before the first store
write, except the key-name assertion inside the updater phase, which no
claim here exercises). -/
def record_event_listener (qdb : QuestionDb) (source : Str) (user_id : Str)
    (data : PyVal) (store : Store) : Option Store :=
  let question_scores : Option (Option (List QuestionScore)) :=
    if source = "tag-assessment".data then
      some (getQuestionsScoresFromSingleItem data)
    else if source = "attempt-lesson".data then
      some (getQuestionsScoresFromManyItems data)
    else if source = "submit-assessment".data then
      some (match pyIndex data "values".data with
        | none => none
        | some inner => getQuestionsScoresFromManyItems inner)
    else none
  match question_scores with
  | none => some store
  | some none => none
  | some (some pairs) =>
    match groupScoresBySkill qdb [] pairs with
    | none => none
    | some groups => runUpdaterPhase user_id store groups

/-- A sequence of calls to the base `update` on one loaded instance,
each with its score and keyword arguments. -/
def runBaseUpdates (m : BaseCompetencyMeasure) :
    List (ℚ × EventMeta) → Option BaseCompetencyMeasure
  | [] => some m
  | a :: rest =>
    match BaseCompetencyMeasure.update m a.1 a.2 with
    | none => none
    | some m1 => runBaseUpdates m1 rest

/-! ## Helper lemmas -/

theorem splitFirstColon_of_not_mem (a : Str) (h : ':' ∉ a) :
    splitFirstColon a = (a, none) := by
  induction a with
  | nil => rfl
  | cons c rest ih =>
    rw [List.mem_cons, not_or] at h
    rw [splitFirstColon, if_neg (fun hc => h.1 hc.symm), ih h.2]

theorem splitFirstColon_append (a : Str) (h : ':' ∉ a) (r : Str) :
    splitFirstColon (a ++ ':' :: r) = (a, some r) := by
  induction a with
  | nil => simp [splitFirstColon]
  | cons c rest ih =>
    rw [List.mem_cons, not_or] at h
    rw [List.cons_append, splitFirstColon, if_neg (fun hc => h.1 hc.symm), ih h.2]

theorem assocLookup_assocSet_self {V : Type} (l : List (Str × V)) (k : Str) (v : V) :
    assocLookup (assocSet l k v) k = some v := by
  induction l with
  | nil => simp [assocSet, assocLookup]
  | cons p rest ih =>
    by_cases hp : p.1 = k
    · simp [assocSet, assocLookup, hp]
    · simp [assocSet, assocLookup, hp, ih]

theorem assocLookup_assocSet_ne {V : Type} (l : List (Str × V)) (k k' : Str) (v : V)
    (h : k' ≠ k) : assocLookup (assocSet l k v) k' = assocLookup l k' := by
  induction l with
  | nil =>
    show assocLookup [(k, v)] k' = none
    rw [assocLookup, if_neg (fun hc => h hc.symm), assocLookup]
  | cons p rest ih =>
    rcases p with ⟨kk, vv⟩
    by_cases hp : kk = k
    · subst hp
      rw [assocSet, if_pos rfl, assocLookup, if_neg (fun hc => h hc.symm),
        assocLookup, if_neg (fun hc => h hc.symm)]
    · rw [assocSet, if_neg hp, assocLookup, assocLookup, ih]

theorem get_data_append_event (dto : CompetencyMeasureDto) (event : EventRecord)
    (k : Str) : (dto.append_event event).get_data k = dto.get_data k := rfl

theorem get_data_set_data_self (dto : CompetencyMeasureDto) (k : Str) (v : Nat) :
    (dto.set_data k v).get_data k = some v :=
  assocLookup_assocSet_self dto.data k v

theorem get_data_set_data_ne (dto : CompetencyMeasureDto) (k k' : Str) (v : Nat)
    (h : k' ≠ k) : (dto.set_data k v).get_data k' = dto.get_data k' :=
  assocLookup_assocSet_ne dto.data k k' v h

theorem correct_key_ne_count_key : CORRECT_KEY ≠ COUNT_KEY := by decide

/-- Single `SuccessRateCompetencyMeasure.update` step on a loaded
instance: it succeeds, appends exactly the one event record, increments
`count` by one, increments `correct` by one exactly when the score meets
the cutoff, and preserves the document id. -/
theorem successRate_update_step (uid : Str) (dto : CompetencyMeasureDto) (s : ℚ)
    (kw : EventMeta) :
    ∃ dto', SuccessRateCompetencyMeasure.update ⟨uid, some dto⟩ s kw =
        some ⟨uid, some dto'⟩ ∧
      (dto'.get_data COUNT_KEY).getD 0 = (dto.get_data COUNT_KEY).getD 0 + 1 ∧
      (dto'.get_data CORRECT_KEY).getD 0 = (dto.get_data CORRECT_KEY).getD 0 +
        (if CORRECT_INCORRECT_CUTOFF ≤ s then 1 else 0) ∧
      dto'.events = dto.events ++ [mkEventRecord s kw] ∧
      dto'.id = dto.id := by
  by_cases hc : CORRECT_INCORRECT_CUTOFF ≤ s
  · refine ⟨((dto.append_event (mkEventRecord s kw)).set_data COUNT_KEY
        ((dto.get_data COUNT_KEY).getD 0 + 1)).set_data CORRECT_KEY
        ((dto.get_data CORRECT_KEY).getD 0 + 1), ?_, ?_, ?_, ?_, ?_⟩
    · rw [SuccessRateCompetencyMeasure.update, BaseCompetencyMeasure.update]
      simp only [if_pos hc, get_data_append_event,
        get_data_set_data_ne _ COUNT_KEY CORRECT_KEY _ correct_key_ne_count_key]
    · rw [get_data_set_data_ne _ _ _ _ (Ne.symm correct_key_ne_count_key),
        get_data_set_data_self]
      rfl
    · rw [get_data_set_data_self, if_pos hc]
      rfl
    · rfl
    · rfl
  · refine ⟨(dto.append_event (mkEventRecord s kw)).set_data COUNT_KEY
        ((dto.get_data COUNT_KEY).getD 0 + 1), ?_, ?_, ?_, ?_, ?_⟩
    · rw [SuccessRateCompetencyMeasure.update, BaseCompetencyMeasure.update]
      simp only [if_neg hc, get_data_append_event]
    · rw [get_data_set_data_self]
      rfl
    · rw [get_data_set_data_ne _ _ _ _ correct_key_ne_count_key,
        get_data_append_event, if_neg hc]
      rfl
    · rfl
    · rfl

/-- Folding `SuccessRateCompetencyMeasure.update` over a list of scores
on a loaded instance: the counters accumulate the length and the number
of passing scores, and the events accumulate one record per score in
arrival order. -/
theorem runSuccessRateUpdates_spec (uid : Str) (dto : CompetencyMeasureDto)
    (scores : List ℚ) :
    ∃ dto', runSuccessRateUpdates ⟨uid, some dto⟩ scores = some ⟨uid, some dto'⟩ ∧
      (dto'.get_data COUNT_KEY).getD 0 =
        (dto.get_data COUNT_KEY).getD 0 + scores.length ∧
      (dto'.get_data CORRECT_KEY).getD 0 = (dto.get_data CORRECT_KEY).getD 0 +
        scores.countP (fun s => decide (CORRECT_INCORRECT_CUTOFF ≤ s)) ∧
      dto'.events =
        dto.events ++ scores.map (fun s => mkEventRecord s ⟨none, none, none, none⟩) ∧
      dto'.id = dto.id := by
  induction scores generalizing dto with
  | nil => exact ⟨dto, rfl, rfl, rfl, by simp, rfl⟩
  | cons s rest ih =>
    obtain ⟨dto1, hupd, hcount1, hcorrect1, hevents1, hid1⟩ :=
      successRate_update_step uid dto s ⟨none, none, none, none⟩
    obtain ⟨dto', hrun, hcount, hcorrect, hevents, hid⟩ := ih dto1
    refine ⟨dto', ?_, ?_, ?_, ?_, ?_⟩
    · rw [runSuccessRateUpdates, hupd]
      exact hrun
    · rw [hcount, hcount1, List.length_cons]
      ring
    · rw [hcorrect, hcorrect1, List.countP_cons]
      by_cases hc : CORRECT_INCORRECT_CUTOFF ≤ s
      · simp [hc]
        ring
      · simp [hc]
    · rw [hevents, hevents1, List.map_cons, List.append_assoc, List.singleton_append]
    · rw [hid, hid1]

/-- Folding the base `update` over score/kwargs pairs on a loaded
instance: it succeeds and the final document is the initial one with the
event records appended in arrival order, nothing else changed. -/
theorem runBaseUpdates_events (uid : Str) (dto : CompetencyMeasureDto)
    (args : List (ℚ × EventMeta)) :
    runBaseUpdates ⟨uid, some dto⟩ args =
      some ⟨uid, some
        { dto with events := dto.events ++ args.map fun a => mkEventRecord a.1 a.2 }⟩ := by
  induction args generalizing dto with
  | nil => simp [runBaseUpdates]
  | cons a rest ih =>
    show runBaseUpdates ⟨uid, some (dto.append_event (mkEventRecord a.1 a.2))⟩ rest = _
    rw [ih]
    simp [CompetencyMeasureDto.append_event, List.append_assoc]

/-! ## Claims -/

/-- Claim C4: for components free of the separator `':'`, building the
composite key with `create_key_name` and decomposing it with the
`split(':', 2)` of `safe_key` returns the original
`(user_id, skill_id, measure_type)` triple. -/
theorem claimC4_key_roundtrip (user_id skill_id class_name : Str)
    (h1 : ':' ∉ user_id) (h2 : ':' ∉ skill_id) (h3 : ':' ∉ class_name) :
    ∃ key, CompetencyMeasureEntity.create_key_name user_id skill_id class_name = some key ∧
      pySplitColonMax2 key = [user_id, skill_id, class_name] := by
  refine ⟨user_id ++ [':'] ++ skill_id ++ [':'] ++ class_name, ?_, ?_⟩
  · rw [CompetencyMeasureEntity.create_key_name, if_neg]
    intro hmem
    rcases List.mem_append.mp hmem with hmem | hc
    · rcases List.mem_append.mp hmem with hu | hs
      · exact h1 hu
      · exact h2 hs
    · exact h3 hc
  · have hshape : user_id ++ [':'] ++ skill_id ++ [':'] ++ class_name =
        user_id ++ ':' :: (skill_id ++ ':' :: class_name) := by
      simp [List.append_assoc]
    rw [hshape]
    simp only [pySplitColonMax2, splitFirstColon_append user_id h1,
      splitFirstColon_append skill_id h2]

/-- Claim C4 witness: the round trip at a concrete separator-free
triple. -/
theorem claimC4_key_roundtrip_witness :
    ∃ key, CompetencyMeasureEntity.create_key_name "user7".data "skill9".data
        SuccessRateCompetencyMeasure.className = some key ∧
      pySplitColonMax2 key =
        ["user7".data, "skill9".data, SuccessRateCompetencyMeasure.className] :=
  claimC4_key_roundtrip "user7".data "skill9".data SuccessRateCompetencyMeasure.className
    (by decide) (by decide) (by decide)

/-- Claim C5: composite-key construction fails (the assertion fires) if
and only if at least one of the three components contains the separator
`':'`. -/
theorem claimC5_key_assertion_iff (user_id skill_id class_name : Str) :
    CompetencyMeasureEntity.create_key_name user_id skill_id class_name = none ↔
      (':' ∈ user_id ∨ ':' ∈ skill_id ∨ ':' ∈ class_name) := by
  rw [CompetencyMeasureEntity.create_key_name]
  by_cases h : ':' ∈ user_id ++ skill_id ++ class_name
  · simp only [if_pos h, true_iff]
    simpa [List.mem_append, or_assoc] using h
  · rw [if_neg h]
    constructor
    · intro hsome
      exact Option.noConfusion hsome
    · intro hcontra
      exact absurd (by simpa [List.mem_append, or_assoc] using hcontra) h

/-- Claim C6: a multi-item payload decoded as a bare list (the pre-1.5
legacy shape) yields zero question-score pairs, without an error. -/
theorem claimC6_legacy_list_ignored (items : List PyVal) :
    getQuestionsScoresFromManyItems (PyVal.list items) = some [] := rfl

/-- Claim C8: a single-item payload that is a question group zips its
sub-question ids with its per-sub-question scores positionally (so equal
3-element lists give exactly the 3 positional pairs), and a non-group
single item gives exactly the one pair `(data['quid'], data['score'])`. -/
theorem claimC8_single_item_pairs :
    (∀ (quids scores : List PyVal) (rest : List (Str × PyVal)),
      getQuestionsScoresFromSingleItem (PyVal.dict
        (("type".data, PyVal.str "QuestionGroup".data) ::
          ("quids".data, PyVal.list quids) ::
          ("individualScores".data, PyVal.list scores) :: rest)) =
        some (quids.zip scores)) ∧
    (∀ (t quid score : PyVal), isQuestionGroupTag t = false →
      getQuestionsScoresFromSingleItem (PyVal.dict
        [("type".data, t), ("quid".data, quid), ("score".data, score)]) =
        some [(quid, score)]) := by
  constructor
  · intro quids scores rest
    rfl
  · intro t quid score h
    simp [getQuestionsScoresFromSingleItem, pyIndex, assocLookup, h]

/-- Claim C8 witness: a concrete group with 3 sub-question ids and 3
scores gives the 3 positional pairs, and a concrete non-group item gives
its single pair. -/
theorem claimC8_single_item_pairs_witness :
    getQuestionsScoresFromSingleItem (PyVal.dict
      [("type".data, PyVal.str "QuestionGroup".data),
        ("quids".data, PyVal.list
          [PyVal.str "q1".data, PyVal.str "q2".data, PyVal.str "q3".data]),
        ("individualScores".data, PyVal.list
          [PyVal.num (mkRat 1 1), PyVal.num (mkRat 0 1), PyVal.num (mkRat 1 2)])]) =
      some [(PyVal.str "q1".data, PyVal.num (mkRat 1 1)),
        (PyVal.str "q2".data, PyVal.num (mkRat 0 1)),
        (PyVal.str "q3".data, PyVal.num (mkRat 1 2))] ∧
    getQuestionsScoresFromSingleItem (PyVal.dict
      [("type".data, PyVal.str "SaQuestion".data),
        ("quid".data, PyVal.str "q4".data),
        ("score".data, PyVal.num (mkRat 1 1))]) =
      some [(PyVal.str "q4".data, PyVal.num (mkRat 1 1))] :=
  ⟨claimC8_single_item_pairs.1
      [PyVal.str "q1".data, PyVal.str "q2".data, PyVal.str "q3".data]
      [PyVal.num (mkRat 1 1), PyVal.num (mkRat 0 1), PyVal.num (mkRat 1 2)] [],
    claimC8_single_item_pairs.2 (PyVal.str "SaQuestion".data)
      (PyVal.str "q4".data) (PyVal.num (mkRat 1 1)) (by decide)⟩

/-- Claim C7: for a source tag other than `tag-assessment`,
`attempt-lesson` and `submit-assessment`, the event listener returns
immediately with the store unchanged and no exception, for every user,
payload, question store and measure store. -/
theorem claimC7_unrecognized_source_ignored (qdb : QuestionDb) (source user_id : Str)
    (data : PyVal) (store : Store)
    (h1 : source ≠ "tag-assessment".data)
    (h2 : source ≠ "attempt-lesson".data)
    (h3 : source ≠ "submit-assessment".data) :
    record_event_listener qdb source user_id data store = some store := by
  rw [record_event_listener]
  simp only [if_neg h1, if_neg h2, if_neg h3]

/-- Claim C7 witness: a concrete unrecognized tag on a concrete store. -/
theorem claimC7_unrecognized_source_ignored_witness :
    record_event_listener (fun _ => none) "click-link".data "user1".data PyVal.null
      (fun _ => none) = some (fun _ => none) :=
  claimC7_unrecognized_source_ignored (fun _ => none) "click-link".data "user1".data
    PyVal.null (fun _ => none) (by decide) (by decide) (by decide)

/-- Claim C10: a recognized event (`tag-assessment`) whose payload yields
a question-score pair whose question id is absent from the question
store makes the listener raise (the attribute access on the `None`
returned by `QuestionDAO.load`), for every initial measure store; the
grouping loop fails before `runUpdaterPhase` builds any updater, so no
store write has happened.  The first conjunct shows ingestion itself
succeeded with the one pair, so the failure is the question lookup. -/
theorem claimC10_missing_question_raises :
    getQuestionsScoresFromSingleItem (PyVal.dict
      [("type".data, PyVal.str "SaQuestion".data),
        ("quid".data, PyVal.str "q1".data),
        ("score".data, PyVal.num (mkRat 4 5))]) =
      some [(PyVal.str "q1".data, PyVal.num (mkRat 4 5))] ∧
    ∀ store : Store,
      record_event_listener (fun _ => none) "tag-assessment".data "user1".data
        (PyVal.dict
          [("type".data, PyVal.str "SaQuestion".data),
            ("quid".data, PyVal.str "q1".data),
            ("score".data, PyVal.num (mkRat 4 5))]) store = none :=
  ⟨rfl, fun _ => rfl⟩

/-- Claim C9: `save`, `update` and `get_events_list` succeed exactly when
a document is loaded (`dto` is not `None`) and fail with the assertion
otherwise; and a successful `save` persists the document and sets the
handle to `None`, consuming the instance. -/
theorem claimC9_guarded_lifecycle (m : BaseCompetencyMeasure) (store : Store)
    (s : ℚ) (kwargs : EventMeta) :
    ((BaseCompetencyMeasure.save store m).isSome = m.dto.isSome ∧
      (BaseCompetencyMeasure.update m s kwargs).isSome = m.dto.isSome ∧
      (BaseCompetencyMeasure.get_events_list m).isSome = m.dto.isSome) ∧
    ∀ dto, m.dto = some dto →
      BaseCompetencyMeasure.save store m =
        some (CompetencyMeasureDao.save store dto, { m with dto := none }) := by
  constructor
  · rcases m with ⟨uid, dto⟩
    cases dto <;>
      simp [BaseCompetencyMeasure.save, BaseCompetencyMeasure.update,
        BaseCompetencyMeasure.get_events_list]
  · intro dto hdto
    rcases m with ⟨uid, mdto⟩
    cases hdto
    rfl

/-- Claim C9 witness: the lifecycle guard at a concrete consumed instance
and a concrete loaded instance. -/
theorem claimC9_guarded_lifecycle_witness :
    ((BaseCompetencyMeasure.save (fun _ => none)
        { user_id := "u".data, dto := none }).isSome =
      (Option.none (α := CompetencyMeasureDto)).isSome ∧
      (BaseCompetencyMeasure.update { user_id := "u".data, dto := none } (mkRat 1 1)
        ⟨none, none, none, none⟩).isSome =
      (Option.none (α := CompetencyMeasureDto)).isSome ∧
      (BaseCompetencyMeasure.get_events_list
        { user_id := "u".data, dto := none }).isSome =
      (Option.none (α := CompetencyMeasureDto)).isSome) ∧
    BaseCompetencyMeasure.save (fun _ => none)
        { user_id := "u".data, dto := some { id := "k".data, data := [], events := [] } } =
      some (CompetencyMeasureDao.save (fun _ => none)
          { id := "k".data, data := [], events := [] },
        { user_id := "u".data, dto := none }) :=
  ⟨(claimC9_guarded_lifecycle { user_id := "u".data, dto := none } (fun _ => none)
      (mkRat 1 1) ⟨none, none, none, none⟩).1,
    (claimC9_guarded_lifecycle
      { user_id := "u".data, dto := some { id := "k".data, data := [], events := [] } }
      (fun _ => none) (mkRat 1 1) ⟨none, none, none, none⟩).2
      { id := "k".data, data := [], events := [] } rfl⟩

/-- Claim C2 counterexample: the claim predicts that, on a fresh document
and a passing score, `SuccessRateCompetencyMeasure.update` performs its
data-summary writes first and the event append last; the mutation
sequence the source performs at that concrete input is not that one (the
`super(...)` call appending the event comes first, source order
lines 144-152). -/
theorem claimC2_counterexample :
    SuccessRateCompetencyMeasure.updateMutationTrace
        { id := "k".data, data := [], events := [] } (mkRat 7 10)
        ⟨none, none, none, none⟩ ≠
      [DtoMutation.setData COUNT_KEY 1, DtoMutation.setData CORRECT_KEY 1,
        DtoMutation.appendEvent
          (mkEventRecord (mkRat 7 10) ⟨none, none, none, none⟩)] := by
  intro h
  exact absurd (congrArg List.head? h) (by decide)

/-- Claim C2 as amended: `SuccessRateCompetencyMeasure.update` first
chains to the base `update` appending the raw event record, and then
updates its private data summary (incrementing `count` unconditionally
and `correct` iff the score meets the cutoff 0.5) — the reverse of the
claimed order; `update`'s result is exactly the fold of that mutation
sequence over the loaded document. -/
theorem claimC2_amended_chain_then_summary (m : BaseCompetencyMeasure)
    (dto : CompetencyMeasureDto) (s : ℚ) (kwargs : EventMeta) (h : m.dto = some dto) :
    SuccessRateCompetencyMeasure.update m s kwargs =
      some { m with
              dto := some ((SuccessRateCompetencyMeasure.updateMutationTrace
                dto s kwargs).foldl applyDtoMutation dto) } ∧
    SuccessRateCompetencyMeasure.updateMutationTrace dto s kwargs =
      DtoMutation.appendEvent (mkEventRecord s kwargs) ::
        DtoMutation.setData COUNT_KEY ((dto.get_data COUNT_KEY).getD 0 + 1) ::
        (if CORRECT_INCORRECT_CUTOFF ≤ s then
          [DtoMutation.setData CORRECT_KEY ((dto.get_data CORRECT_KEY).getD 0 + 1)]
        else []) := by
  obtain ⟨uid, mdto⟩ := m
  have h' : mdto = some dto := h
  subst h'
  have htrace : SuccessRateCompetencyMeasure.updateMutationTrace dto s kwargs =
      DtoMutation.appendEvent (mkEventRecord s kwargs) ::
        DtoMutation.setData COUNT_KEY ((dto.get_data COUNT_KEY).getD 0 + 1) ::
        (if CORRECT_INCORRECT_CUTOFF ≤ s then
          [DtoMutation.setData CORRECT_KEY ((dto.get_data CORRECT_KEY).getD 0 + 1)]
        else []) := by
    by_cases hc : CORRECT_INCORRECT_CUTOFF ≤ s
    · simp only [SuccessRateCompetencyMeasure.updateMutationTrace, if_pos hc,
        get_data_append_event,
        get_data_set_data_ne _ COUNT_KEY CORRECT_KEY _ correct_key_ne_count_key]
    · simp only [SuccessRateCompetencyMeasure.updateMutationTrace, if_neg hc,
        get_data_append_event]
  refine ⟨?_, htrace⟩
  rw [htrace]
  by_cases hc : CORRECT_INCORRECT_CUTOFF ≤ s
  · rw [if_pos hc, SuccessRateCompetencyMeasure.update, BaseCompetencyMeasure.update]
    simp only [if_pos hc, get_data_append_event,
      get_data_set_data_ne _ COUNT_KEY CORRECT_KEY _ correct_key_ne_count_key,
      List.foldl, applyDtoMutation]
  · rw [if_neg hc, SuccessRateCompetencyMeasure.update, BaseCompetencyMeasure.update]
    simp only [if_neg hc, get_data_append_event, List.foldl, applyDtoMutation]

/-- Claim C2 (amended) witness: the chained-then-summary order at a
concrete fresh document and passing score. -/
theorem claimC2_amended_chain_then_summary_witness :
    SuccessRateCompetencyMeasure.update
        { user_id := "u".data,
          dto := some { id := "k".data, data := [], events := [] } }
        (mkRat 7 10) ⟨none, none, none, none⟩ =
      some { user_id := "u".data,
              dto := some ((SuccessRateCompetencyMeasure.updateMutationTrace
                { id := "k".data, data := [], events := [] } (mkRat 7 10)
                ⟨none, none, none, none⟩).foldl applyDtoMutation
                { id := "k".data, data := [], events := [] }) } ∧
    SuccessRateCompetencyMeasure.updateMutationTrace
        { id := "k".data, data := [], events := [] } (mkRat 7 10)
        ⟨none, none, none, none⟩ =
      [DtoMutation.appendEvent (mkEventRecord (mkRat 7 10) ⟨none, none, none, none⟩),
        DtoMutation.setData COUNT_KEY 1, DtoMutation.setData CORRECT_KEY 1] :=
  claimC2_amended_chain_then_summary
    { user_id := "u".data, dto := some { id := "k".data, data := [], events := [] } }
    { id := "k".data, data := [], events := [] } (mkRat 7 10)
    ⟨none, none, none, none⟩ rfl

/-- Claim C3: on a loaded instance, folding the base `update` over any
argument sequence succeeds and yields the initial document with exactly
the corresponding event records appended at the end in arrival order
(data untouched, nothing reordered or removed), with `get_events_list`
returning exactly that stored sequence; the same events behavior holds
for `SuccessRateCompetencyMeasure.update` (which chains to the base
`update`). -/
theorem claimC3_events_append_only (m : BaseCompetencyMeasure)
    (dto : CompetencyMeasureDto) (args : List (ℚ × EventMeta)) (scores : List ℚ)
    (h : m.dto = some dto) :
    (∃ m', runBaseUpdates m args = some m' ∧
      m'.dto = some
        { dto with events := dto.events ++ args.map fun a => mkEventRecord a.1 a.2 } ∧
      BaseCompetencyMeasure.get_events_list m' =
        some (dto.get_events_list ++ args.map fun a => mkEventRecord a.1 a.2)) ∧
    (∃ m'', runSuccessRateUpdates m scores = some m'' ∧
      BaseCompetencyMeasure.get_events_list m'' =
        some (dto.get_events_list ++
          scores.map fun s => mkEventRecord s ⟨none, none, none, none⟩)) := by
  obtain ⟨uid, mdto⟩ := m
  have h' : mdto = some dto := h
  subst h'
  constructor
  · refine ⟨_, runBaseUpdates_events uid dto args, rfl, rfl⟩
  · obtain ⟨dto', hrun, _, _, hevents, _⟩ := runSuccessRateUpdates_spec uid dto scores
    refine ⟨⟨uid, some dto'⟩, hrun, ?_⟩
    show some dto'.get_events_list = _
    simp only [CompetencyMeasureDto.get_events_list]
    rw [hevents]

/-- Claim C3 witness: two base updates on a concretely loaded instance
append their two records in order. -/
theorem claimC3_events_append_only_witness :
    (∃ m', runBaseUpdates
        { user_id := "u".data,
          dto := some { id := "k".data, data := [], events := [] } }
        [(mkRat 1 1, ⟨none, none, none, none⟩), (mkRat 0 1, ⟨some 3, none, none, some 9⟩)] =
        some m' ∧
      m'.dto = some
        { id := "k".data, data := [], events :=
          ([] : List EventRecord) ++
            [(mkRat 1 1, (⟨none, none, none, none⟩ : EventMeta)),
              (mkRat 0 1, ⟨some 3, none, none, some 9⟩)].map
              fun a => mkEventRecord a.1 a.2 } ∧
      BaseCompetencyMeasure.get_events_list m' =
        some (([] : List EventRecord) ++
          [(mkRat 1 1, (⟨none, none, none, none⟩ : EventMeta)),
            (mkRat 0 1, ⟨some 3, none, none, some 9⟩)].map
            fun a => mkEventRecord a.1 a.2)) ∧
    (∃ m'', runSuccessRateUpdates
        { user_id := "u".data,
          dto := some { id := "k".data, data := [], events := [] } }
        [mkRat 1 1] = some m'' ∧
      BaseCompetencyMeasure.get_events_list m'' =
        some (([] : List EventRecord) ++
          [mkRat 1 1].map fun s => mkEventRecord s ⟨none, none, none, none⟩)) :=
  claimC3_events_append_only
    { user_id := "u".data, dto := some { id := "k".data, data := [], events := [] } }
    { id := "k".data, data := [], events := [] }
    [(mkRat 1 1, ⟨none, none, none, none⟩), (mkRat 0 1, ⟨some 3, none, none, some 9⟩)]
    [mkRat 1 1] rfl

/-- Claim C1: feeding scores in `[0,1]` to a
`SuccessRateCompetencyMeasure` via `load` (here with no prior stored
document) followed by one `update` per score makes `get_skill_score()`
return the number of scores at or above 0.5 divided by the number of
scores when that number is positive, and `get_skill_score()` on the
freshly loaded measure with no observations returns `0.0`. -/
theorem claimC1_success_rate_score (store : Store) (user_id skill_id : Str)
    (scores : List ℚ)
    (h1 : ':' ∉ user_id) (h2 : ':' ∉ skill_id)
    (h3 : store (user_id ++ [':'] ++ skill_id ++ [':'] ++
      SuccessRateCompetencyMeasure.className) = none)
    (hs : ∀ s ∈ scores, 0 ≤ s ∧ s ≤ 1) :
    ∃ m, SuccessRateCompetencyMeasure.load store (BaseCompetencyMeasure.init user_id)
        skill_id = some m ∧
      SuccessRateCompetencyMeasure.get_skill_score m = some 0 ∧
      ∃ m', runSuccessRateUpdates m scores = some m' ∧
        SuccessRateCompetencyMeasure.get_skill_score m' =
          some (if scores.length = 0 then 0 else
            ((scores.countP fun s => decide (CORRECT_INCORRECT_CUTOFF ≤ s) : Nat) : ℚ) /
              (scores.length : ℚ)) := by
  have hkeyfree : ':' ∉ user_id ++ skill_id ++ SuccessRateCompetencyMeasure.className := by
    intro hmem
    rcases List.mem_append.mp hmem with hmem | hc
    · rcases List.mem_append.mp hmem with hu | hsk
      · exact h1 hu
      · exact h2 hsk
    · exact absurd hc (by decide)
  refine ⟨⟨user_id, some
    { id := user_id ++ [':'] ++ skill_id ++ [':'] ++
        SuccessRateCompetencyMeasure.className,
      data := [], events := [] }⟩, ?_, rfl, ?_⟩
  · rw [SuccessRateCompetencyMeasure.load, BaseCompetencyMeasure.load,
      CompetencyMeasureEntity.create_key_name]
    simp only [BaseCompetencyMeasure.init]
    rw [if_neg hkeyfree, Option.map_some', CompetencyMeasureDao.load, h3]
    rfl
  · obtain ⟨dto', hrun, hcount, hcorrect, hevents, hid⟩ :=
      runSuccessRateUpdates_spec user_id
        { id := user_id ++ [':'] ++ skill_id ++ [':'] ++
            SuccessRateCompetencyMeasure.className,
          data := [], events := [] } scores
    refine ⟨⟨user_id, some dto'⟩, hrun, ?_⟩
    have hc0 : (dto'.get_data COUNT_KEY).getD 0 = scores.length := by
      rw [hcount]
      simp [CompetencyMeasureDto.get_data, assocLookup]
    have hr0 : (dto'.get_data CORRECT_KEY).getD 0 =
        scores.countP fun s => decide (CORRECT_INCORRECT_CUTOFF ≤ s) := by
      rw [hcorrect]
      simp [CompetencyMeasureDto.get_data, assocLookup]
    rw [SuccessRateCompetencyMeasure.get_skill_score, Option.map_some', hc0, hr0]
    by_cases hn : scores.length = 0
    · simp [hn]
    · simp [hn]

/-- Claim C1 witness: scores `[1, 1/4]` on a fresh measure give skill
score `1 / 2`, and the freshly loaded measure gives `0`. -/
theorem claimC1_success_rate_score_witness :
    ∃ m, SuccessRateCompetencyMeasure.load (fun _ => none)
        (BaseCompetencyMeasure.init "u".data) "s1".data = some m ∧
      SuccessRateCompetencyMeasure.get_skill_score m = some 0 ∧
      ∃ m', runSuccessRateUpdates m [mkRat 1 1, mkRat 1 4] = some m' ∧
        SuccessRateCompetencyMeasure.get_skill_score m' =
          some (if ([mkRat 1 1, mkRat 1 4] : List ℚ).length = 0 then 0 else
            ((([mkRat 1 1, mkRat 1 4] : List ℚ).countP
                fun s => decide (CORRECT_INCORRECT_CUTOFF ≤ s) : Nat) : ℚ) /
              (([mkRat 1 1, mkRat 1 4] : List ℚ).length : ℚ)) :=
  claimC1_success_rate_score (fun _ => none) "u".data "s1".data
    [mkRat 1 1, mkRat 1 4] (by decide) (by decide) rfl (by decide)

end CourseBuilder
